import Mathlib

/-!
Shallow embedding of the SckyzO/slurm_prometheus_exporter aggregation engine
(internal/collector, internal/config, internal/server), faithful to the Go
source.  Go maps are embedded as association lists together with an explicit
iteration sequence, because Go's `range` over a map visits entries in an
unspecified order; wherever the source iterates a map, the embedding takes
the iteration sequence as an argument and facts that depend on it are proved
for every (or for concrete) admissible sequences.
-/

namespace SlurmExporter

/-- `dto.LabelPair`: one `name="value"` pair attached to a metric. -/
structure LabelPair where
  name : String
  value : String
deriving DecidableEq, Repr, Inhabited

/-- `dto.Metric`: one sample; only the `Label` field matters to the engine
(the value/timestamp fields are carried opaquely). -/
structure Metric where
  label : List LabelPair
  value : Int
deriving DecidableEq, Repr, Inhabited

/-- `dto.MetricFamily`: named family with help text, a kind tag and its
samples, as produced by the text parser. -/
structure MetricFamily where
  name : String
  help : String
  mtype : String
  metric : List Metric
deriving DecidableEq, Repr, Inhabited

/-- `config.EndpointConfig` (internal/config/config.go). -/
structure EndpointConfig where
  name : String
  path : String
  enabled : Bool
deriving DecidableEq, Repr

/-! ## Label injector (Collector.addCustomLabels, MetricFamily variant)

The Go source builds `customLabels` by ranging over the `map[string]string`
`c.config.Labels`; the embedding receives that range as the list
`cfgLabels : List (String × String)` (one entry per key, in the order Go's
map iteration happened to visit them). -/

/-- The `customLabels` slice built at the top of `addCustomLabels`:
one `dto.LabelPair` per config entry, in iteration order. -/
def mkCustomLabels (cfgLabels : List (String × String)) : List LabelPair :=
  cfgLabels.map (fun kv => { name := kv.1, value := kv.2 })

/-- The in-place update `metric.Label = append(metric.Label, customLabels...)`
performed on every metric of every family. -/
def appendLabelsToMetric (custom : List LabelPair) (m : Metric) : Metric :=
  { m with label := m.label ++ custom }

/-- The double loop over `families` / `family.Metric` in `addCustomLabels`. -/
def appendLabelsToFamilies (custom : List LabelPair) (families : List MetricFamily) :
    List MetricFamily :=
  families.map (fun fam => { fam with metric := fam.metric.map (appendLabelsToMetric custom) })

/-- `Collector.addCustomLabels` (the `[]*dto.MetricFamily` variant): returns
the input unchanged when the config label map is empty, otherwise appends the
custom label pairs to every metric's label list. -/
def addCustomLabels (cfgLabels : List (String × String)) (families : List MetricFamily) :
    List MetricFamily :=
  if cfgLabels.length = 0 then families
  else appendLabelsToFamilies (mkCustomLabels cfgLabels) families

/-- State of the *input* structure after `addCustomLabels` returns.  In Go the
function writes through the `*dto.Metric` pointers held by the input slice
(`metric.Label = append(...)`) and returns the same slice, so after the call
the caller's structure carries the appended labels whenever the label map is
non-empty; on the empty map the early return leaves it untouched. -/
def inputAfterAddCustomLabels (cfgLabels : List (String × String))
    (families : List MetricFamily) : List MetricFamily :=
  if cfgLabels.length = 0 then families
  else appendLabelsToFamilies (mkCustomLabels cfgLabels) families

/-! ## Label injector (Collector.addCustomLabels, raw-text variant)

The first collector variant in the repository works on the raw exposition
text line by line.  The embedding represents the text as its list of lines
(`bufio.Scanner` splits on newlines; the Go code re-appends `"\n"` after
every line it writes). -/

/-- The whitespace characters `unicode.IsSpace` recognizes in ASCII input
(space, tab, newline, vertical tab, form feed, carriage return). -/
def isGoSpace (c : Char) : Bool :=
  c == ' ' || c == '\t' || c == '\n' || c.toNat == 11 || c.toNat == 12 || c == '\r'

/-- Character-level pass of `strings.Fields`: accumulate the current field
(reversed) and cut at every whitespace run. -/
def fieldsAux : List Char → List Char → List (List Char)
  | acc, [] => if acc = [] then [] else [acc.reverse]
  | acc, c :: rest =>
      if isGoSpace c then
        if acc = [] then fieldsAux [] rest else acc.reverse :: fieldsAux [] rest
      else fieldsAux (c :: acc) rest

/-- `strings.Fields`: the whitespace-separated fields of a line, empty
fields dropped. -/
def goFields (line : String) : List String :=
  (fieldsAux [] line.data).map String.mk

/-- `strings.Join(parts, sep)`. -/
def goJoin (sep : String) : List String → String
  | [] => ""
  | [x] => x
  | x :: xs => x ++ sep ++ goJoin sep xs

/-- `strings.HasPrefix(line, "#")`. -/
def isCommentLine (line : String) : Bool :=
  match line.data with
  | '#' :: _ => true
  | _ => false

/-- `strings.TrimSpace(line) == ""`: the line is all whitespace. -/
def isBlankLine (line : String) : Bool := line.data.all isGoSpace

/-- The `labelsStr` built by ranging over the config label map:
`k1="v1",k2="v2",...` in iteration order. -/
def mkLabelsStr (cfgLabels : List (String × String)) : String :=
  goJoin "," (cfgLabels.map (fun kv => kv.1 ++ "=\"" ++ kv.2 ++ "\""))

/-- The body of the per-line loop in the raw-text `addCustomLabels`:
comment lines, blank lines and lines with fewer than two fields are written
back verbatim; otherwise the labels string is spliced into (or appended as)
the brace-enclosed label list of the first field.  `strings.Index '{'` and
the byte slicing `metricPart[idx+1 : len-1]` are rendered as
`takeWhile`/`dropWhile`/`dropLast` on the character list. -/
def processLine (labelsStr : String) (line : String) : String :=
  if isCommentLine line || isBlankLine line then line
  else
    let parts := goFields line
    if parts.length < 2 then line
    else
      let metricPart := parts.headI
      let rest := goJoin " " parts.tail
      if metricPart.data.contains '{' then
        let nm : String := ⟨metricPart.data.takeWhile (fun c => !(c == '{'))⟩
        let existing : String :=
          ⟨((metricPart.data.dropWhile (fun c => !(c == '{'))).drop 1).dropLast⟩
        nm ++ "\x7b" ++ existing ++ "," ++ labelsStr ++ "\x7d " ++ rest
      else
        metricPart ++ "\x7b" ++ labelsStr ++ "\x7d " ++ rest

/-- `Collector.addCustomLabels` (raw-text variant), on the text's list of
lines: identity when the config label map is empty, otherwise every line is
processed by the per-line loop. -/
def addCustomLabelsText (cfgLabels : List (String × String)) (lines : List String) :
    List String :=
  if cfgLabels.length = 0 then lines
  else lines.map (processLine (mkLabelsStr cfgLabels))

/-! ## Configuration (internal/config/config.go) -/

/-- `config.SlurmConfig`. -/
structure SlurmConfig where
  url : String
  timeout : String
deriving DecidableEq, Repr

/-- `config.BasicAuthConfig`. -/
structure BasicAuthConfig where
  enabled : Bool
  username : String
  password : String
deriving DecidableEq, Repr

/-- `config.SSLConfig`. -/
structure SSLConfig where
  enabled : Bool
  certFile : String
  keyFile : String
deriving DecidableEq, Repr

/-- `config.ServerConfig`. -/
structure ServerConfig where
  port : Int
  basicAuth : BasicAuthConfig
  ssl : SSLConfig
deriving DecidableEq, Repr

/-- `config.LoggingConfig`. -/
structure LoggingConfig where
  level : String
  output : String
deriving DecidableEq, Repr

/-- `config.Config`; the label map is carried as an association list (one
entry per key). -/
structure Config where
  slurm : SlurmConfig
  server : ServerConfig
  endpoints : List EndpointConfig
  labels : List (String × String)
  logging : LoggingConfig
deriving DecidableEq, Repr

/-- The per-endpoint loop of `Config.Validate`: first empty name or empty
path reports an error with the endpoint's index. -/
def validateEndpointList : List EndpointConfig → Nat → Option String
  | [], _ => none
  | e :: rest, i =>
      if e.name = "" then some ("endpoint " ++ toString i ++ ": name is required")
      else if e.path = "" then some ("endpoint " ++ toString i ++ ": path is required")
      else validateEndpointList rest (i + 1)

/-- `Config.Validate`.  The call to the standard library's
`time.ParseDuration` is embedded as the oracle `parseDurationOk`.  On success
the function returns the configuration with the logging defaults filled in
(the Go method mutates `c.Logging` in place before returning `nil`). -/
def Config.Validate (parseDurationOk : String → Bool) (c : Config) : Except String Config :=
  if c.slurm.url = "" then .error "slurm.url is required"
  else if c.slurm.timeout = "" then .error "slurm.timeout is required"
  else if ¬ parseDurationOk c.slurm.timeout then .error "invalid slurm.timeout format"
  else if c.server.port ≤ 0 ∨ c.server.port > 65535 then
    .error "server.port must be between 1 and 65535"
  else if c.server.basicAuth.enabled ∧
      (c.server.basicAuth.username = "" ∨ c.server.basicAuth.password = "") then
    .error "basic auth is enabled but username or password is empty"
  else if c.server.ssl.enabled ∧
      (c.server.ssl.certFile = "" ∨ c.server.ssl.keyFile = "") then
    .error "ssl is enabled but cert_file or key_file is empty"
  else if c.endpoints.length = 0 then .error "at least one endpoint must be configured"
  else
    match validateEndpointList c.endpoints 0 with
    | some e => .error e
    | none =>
        let level := if c.logging.level = "" then "info" else c.logging.level
        if ¬ (level = "debug" ∨ level = "info" ∨ level = "warn" ∨ level = "error") then
          .error "logging.level must be one of: debug, info, warn, error"
        else
          let output := if c.logging.output = "" then "stdout" else c.logging.output
          .ok { c with logging := { level := level, output := output } }

/-- `Config.GetEnabledEndpoints`: keeps the enabled endpoints in declaration
order. -/
def Config.GetEnabledEndpoints (c : Config) : List EndpointConfig :=
  c.endpoints.filter (·.enabled)

/-! ## Orchestrator (Collector.CollectAll, collectEndpoint, WriteMetrics)
and the HTTP handler (Server.handleMetrics). -/

/-- Possible outcomes of the network/parse stages of `collectEndpoint` for
one endpoint, fixed per scrape by the environment. -/
inductive FetchOutcome where
  | success (families : List MetricFamily)
  | connectFailure
  | badStatus (code : Nat)
  | readFailure
  | parseFailure
deriving DecidableEq, Repr

/-- `Collector.collectEndpoint` (the `[]*dto.MetricFamily` variant): every
abnormal stage returns an error; a parsed body gets the custom labels
appended before being returned. -/
def collectEndpoint (cfgLabels : List (String × String)) (outcome : FetchOutcome) :
    Except String (List MetricFamily) :=
  match outcome with
  | .success fams => .ok (addCustomLabels cfgLabels fams)
  | .connectFailure => .error "failed to fetch metrics"
  | .badStatus code => .error ("unexpected status code: " ++ toString code)
  | .readFailure => .error "failed to read response"
  | .parseFailure => .error "failed to parse metrics"

/-- `results[endpoint.Name] = metricFamilies` on a Go map embedded as an
association list: overwrite an existing key, otherwise add the entry. -/
def mapInsert (k : String) (v : List MetricFamily)
    (m : List (String × List MetricFamily)) : List (String × List MetricFamily) :=
  if m.any (·.1 = k) then m.map (fun kv => if kv.1 = k then (k, v) else kv)
  else m ++ [(k, v)]

/-- Observable state accumulated by one `CollectAll` run: the results map
(as an association list in insertion order) and the sequence of
`ScrapeSuccess.Set` / `ScrapeErrors.Inc` calls on the self-metrics
registry. -/
structure ScrapeState where
  results : List (String × List MetricFamily)
  successGauge : List (String × Nat)
  errorIncs : List String
deriving DecidableEq, Repr

/-- One iteration of the `CollectAll` loop body for one endpoint. -/
def collectStep (cfgLabels : List (String × String)) (outcomes : String → FetchOutcome)
    (st : ScrapeState) (ep : EndpointConfig) : ScrapeState :=
  match collectEndpoint cfgLabels (outcomes ep.name) with
  | .error _ =>
      { st with successGauge := st.successGauge ++ [(ep.name, 0)],
                errorIncs := st.errorIncs ++ [ep.name] }
  | .ok fams =>
      { st with successGauge := st.successGauge ++ [(ep.name, 1)],
                results := mapInsert ep.name fams st.results }

/-- `Collector.CollectAll`: iterates the enabled endpoints in declaration
order, isolating per-endpoint failures, and returns the results map together
with the function's error result — which the source fixes to `nil`. -/
def CollectAll (cfgLabels : List (String × String)) (outcomes : String → FetchOutcome)
    (c : Config) : ScrapeState × Option String :=
  (c.GetEnabledEndpoints.foldl (collectStep cfgLabels outcomes) ⟨[], [], []⟩, none)

/-- The value a gauge holds after a sequence of `Set` calls: the last write
for that endpoint name, if any. -/
def gaugeValue (trace : List (String × Nat)) (name : String) : Option Nat :=
  ((trace.filter (·.1 = name)).getLast?).map (·.2)

/-- `Collector.WriteMetrics` (the `[]*dto.MetricFamily` variant): the outer
loop ranges over the results *map*, so the embedding receives the iteration
sequence `iter` (some permutation of the map's entries) and writes each
endpoint's family slice in order.  The result is the sequence of families
encoded to the response. -/
def WriteMetrics (iter : List (String × List MetricFamily)) : List MetricFamily :=
  (iter.map (·.2)).flatten

/-- `Server.handleMetrics` (internal/server/http.go): a non-nil `CollectAll`
error answers HTTP 500 with no body; otherwise the merged families are
written followed by the process self-metrics, with the implicit 200 status.
`iterChoice` stands for Go's choice of map iteration order over the results
map; `selfMetrics` is the output of the `promhttp` handler. -/
def handleMetrics (cfgLabels : List (String × String)) (outcomes : String → FetchOutcome)
    (c : Config)
    (iterChoice : List (String × List MetricFamily) → List (String × List MetricFamily))
    (selfMetrics : List MetricFamily) : Nat × List MetricFamily :=
  let res := CollectAll cfgLabels outcomes c
  match res.2 with
  | some _ => (500, [])
  | none => (200, WriteMetrics (iterChoice res.1.results) ++ selfMetrics)

/-! ## Exposition-format label-value escaping

Modelled from the spec: the parser and writer the repository delegates to
(the `expfmt` text parser/encoder, which is third-party library code and not
under src/) handle label values where, per the spec, "value strings may
contain escaped quotes, which must be unescaped on read and re-escaped on
write (round-trip-safe)" and the writer "must escape label values on output
symmetrically with the parser's unescaping". -/

/-- Modelled from the spec: the writer's escaping of one label value —
backslash, double quote and newline are written as two-character escape
sequences. -/
def escapeChars : List Char → List Char
  | [] => []
  | c :: rest =>
      if c = '\\' then '\\' :: '\\' :: escapeChars rest
      else if c = '"' then '\\' :: '"' :: escapeChars rest
      else if c = '\n' then '\\' :: 'n' :: escapeChars rest
      else c :: escapeChars rest

/-- Modelled from the spec: the parser's unescaping of one label value —
a backslash consumes the following character, mapping `n` back to a newline
and any other escaped character to itself. -/
def unescapeChars : List Char → List Char
  | [] => []
  | c :: rest =>
      if c = '\\' then
        match rest with
        | [] => ['\\']
        | d :: rest' => (if d = 'n' then '\n' else d) :: unescapeChars rest'
      else c :: unescapeChars rest

/-- String wrapper for the writer's escaping. -/
def escapeLabelValue (s : String) : String := ⟨escapeChars s.data⟩

/-- String wrapper for the parser's unescaping. -/
def unescapeLabelValue (s : String) : String := ⟨unescapeChars s.data⟩

/-- `err == nil` on the result of `Config.Validate`. -/
def validateOk (r : Except String Config) : Bool :=
  match r with
  | .ok _ => true
  | .error _ => false

/-- A fully valid configuration whose single endpoint is disabled. -/
def allDisabledConfig : Config :=
  { slurm := { url := "http://localhost:6820", timeout := "30s" },
    server := { port := 8080,
                basicAuth := { enabled := false, username := "", password := "" },
                ssl := { enabled := false, certFile := "", keyFile := "" } },
    endpoints := [{ name := "nodes", path := "/slurm/v0.0.40/metrics/nodes", enabled := false }],
    labels := [],
    logging := { level := "info", output := "stdout" } }

/-! ## Theorems -/

/-- Helper: with a non-empty config label list, `addCustomLabels` sends each
metric of each family to the same metric with the custom pairs appended to
its label list. -/
theorem mem_addCustomLabels_of_ne (cfgLabels : List (String × String))
    (fams : List MetricFamily) (fam : MetricFamily) (m : Metric)
    (hne : cfgLabels ≠ []) (hfam : fam ∈ fams) (hm : m ∈ fam.metric) :
    ∃ fam' ∈ addCustomLabels cfgLabels fams, fam'.name = fam.name ∧
      ∃ m' ∈ fam'.metric, m'.label = m.label ++ mkCustomLabels cfgLabels := by
  have hlen : ¬ cfgLabels.length = 0 := by
    simpa [List.length_eq_zero] using hne
  unfold addCustomLabels appendLabelsToFamilies
  rw [if_neg hlen]
  exact ⟨_, List.mem_map_of_mem _ hfam, rfl,
    appendLabelsToMetric (mkCustomLabels cfgLabels) m, List.mem_map_of_mem _ hm, rfl⟩

/-- C5: with an empty extra-label mapping both `addCustomLabels` variants
return their input unchanged (the Go functions take the
`len(c.config.Labels) == 0` early return). -/
theorem c5_empty_mapping_identity (fams : List MetricFamily) (lines : List String) :
    addCustomLabels [] fams = fams ∧ addCustomLabelsText [] lines = lines :=
  ⟨rfl, rfl⟩

/-- C10: `CollectAll` returns a nil error unconditionally — for every label
configuration, every endpoint-outcome environment and every configuration —
so the 500 branch of `handleMetrics` is unreachable and the handler always
answers status 200. -/
theorem c10_collectall_nil_error (cfgLabels : List (String × String))
    (outcomes : String → FetchOutcome) (c : Config)
    (iterChoice : List (String × List MetricFamily) → List (String × List MetricFamily))
    (selfMetrics : List MetricFamily) :
    (CollectAll cfgLabels outcomes c).2 = none ∧
    (handleMetrics cfgLabels outcomes c iterChoice selfMetrics).1 = 200 :=
  ⟨rfl, rfl⟩

/-- C1 (counterexample): with extra label `cluster="c1"` and an upstream
sample already labeled `cluster="upstream"`, the injector's output carries
the key `cluster` twice and still carries the upstream pair — the extra
value does not replace it. -/
theorem c1_counterexample :
    ((addCustomLabels [("cluster", "c1")]
        [⟨"slurm_nodes_idle", "", "untyped", [⟨[⟨"cluster", "upstream"⟩], 5⟩]⟩]).headI.metric.headI.label.filter
          (fun p => p.name == "cluster")).length = 2 ∧
    LabelPair.mk "cluster" "upstream" ∈
      (addCustomLabels [("cluster", "c1")]
        [⟨"slurm_nodes_idle", "", "untyped", [⟨[⟨"cluster", "upstream"⟩], 5⟩]⟩]).headI.metric.headI.label := by
  decide

/-- C1 (amended): on a key collision `addCustomLabels` appends the extra
pair after the upstream labels, so the output sample carries both the
upstream pair and the extra pair and the colliding key appears at least
twice; the extra value is present but never replaces the upstream one. -/
theorem c1_amended_collision_appends_both
    (cfgLabels : List (String × String)) (fams : List MetricFamily)
    (fam : MetricFamily) (m : Metric) (k v0 v1 : String)
    (hfam : fam ∈ fams) (hm : m ∈ fam.metric)
    (hup : LabelPair.mk k v0 ∈ m.label) (hcfg : (k, v1) ∈ cfgLabels) :
    ∃ fam' ∈ addCustomLabels cfgLabels fams, fam'.name = fam.name ∧
      ∃ m' ∈ fam'.metric, m'.label = m.label ++ mkCustomLabels cfgLabels ∧
        LabelPair.mk k v0 ∈ m'.label ∧ LabelPair.mk k v1 ∈ m'.label ∧
        2 ≤ (m'.label.filter (fun p => p.name == k)).length := by
  have hne : cfgLabels ≠ [] := by rintro rfl; simp at hcfg
  obtain ⟨fam', hfam', hname, m', hm', hlab⟩ :=
    mem_addCustomLabels_of_ne cfgLabels fams fam m hne hfam hm
  have hv1 : LabelPair.mk k v1 ∈ mkCustomLabels cfgLabels := by
    simpa [mkCustomLabels] using List.mem_map_of_mem (fun kv => LabelPair.mk kv.1 kv.2) hcfg
  refine ⟨fam', hfam', hname, m', hm', hlab, ?_, ?_, ?_⟩
  · rw [hlab]; exact List.mem_append_left _ hup
  · rw [hlab]; exact List.mem_append_right _ hv1
  · rw [hlab, List.filter_append, List.length_append]
    have h1 : 0 < (m.label.filter (fun p => p.name == k)).length :=
      List.length_pos_of_mem (List.mem_filter.mpr ⟨hup, by simp⟩)
    have h2 : 0 < ((mkCustomLabels cfgLabels).filter (fun p => p.name == k)).length :=
      List.length_pos_of_mem (List.mem_filter.mpr ⟨hv1, by simp⟩)
    omega

/-- C1 (amended, witness): the amended statement at the concrete collision
`cluster="upstream"` vs extra `cluster="c1"`. -/
theorem c1_amended_witness :
    ∃ fam' ∈ addCustomLabels [("cluster", "c1")]
        [⟨"slurm_nodes_idle", "", "untyped", [⟨[⟨"cluster", "upstream"⟩], 5⟩]⟩],
      fam'.name = "slurm_nodes_idle" ∧
      ∃ m' ∈ fam'.metric,
        m'.label = [⟨"cluster", "upstream"⟩] ++ mkCustomLabels [("cluster", "c1")] ∧
        LabelPair.mk "cluster" "upstream" ∈ m'.label ∧
        LabelPair.mk "cluster" "c1" ∈ m'.label ∧
        2 ≤ (m'.label.filter (fun p => p.name == "cluster")).length :=
  c1_amended_collision_appends_both [("cluster", "c1")]
    [⟨"slurm_nodes_idle", "", "untyped", [⟨[⟨"cluster", "upstream"⟩], 5⟩]⟩]
    ⟨"slurm_nodes_idle", "", "untyped", [⟨[⟨"cluster", "upstream"⟩], 5⟩]⟩
    ⟨[⟨"cluster", "upstream"⟩], 5⟩ "cluster" "upstream" "c1"
    (by decide) (by decide) (by decide) (by decide)

/-- C6 (counterexample): with a non-empty extra-label mapping the caller's
input structure is not left unchanged — after the call the (aliased) input
metric carries the appended extra pair. -/
theorem c6_counterexample :
    inputAfterAddCustomLabels [("cluster", "c1")]
        [⟨"slurm_nodes_idle", "", "untyped", [⟨[], 5⟩]⟩] ≠
      [⟨"slurm_nodes_idle", "", "untyped", [⟨[], 5⟩]⟩] := by
  decide

/-- C6 (amended): `addCustomLabels` mutates the input in place — writing
through the metric pointers — and returns the same structure, so the
post-call input equals the returned value, which is the input with the
custom pairs appended to every metric's label list (no defensive clone). -/
theorem c6_amended_in_place_append (cfgLabels : List (String × String))
    (fams : List MetricFamily) (hne : cfgLabels ≠ []) :
    inputAfterAddCustomLabels cfgLabels fams = addCustomLabels cfgLabels fams ∧
    addCustomLabels cfgLabels fams = fams.map (fun fam =>
      { fam with metric := fam.metric.map (fun m =>
          { m with label := m.label ++ mkCustomLabels cfgLabels }) }) := by
  have hlen : ¬ cfgLabels.length = 0 := by
    simpa [List.length_eq_zero] using hne
  refine ⟨rfl, ?_⟩
  unfold addCustomLabels appendLabelsToFamilies
  rw [if_neg hlen]
  rfl

/-- C6 (amended, witness): the amended statement at a concrete one-entry
mapping and one-sample family. -/
theorem c6_amended_witness :
    ([("cluster", "c1")] : List (String × String)) ≠ [] ∧
    (inputAfterAddCustomLabels [("cluster", "c1")]
        [⟨"slurm_nodes_idle", "", "untyped", [⟨[], 5⟩]⟩] =
      addCustomLabels [("cluster", "c1")]
        [⟨"slurm_nodes_idle", "", "untyped", [⟨[], 5⟩]⟩] ∧
    addCustomLabels [("cluster", "c1")]
        [⟨"slurm_nodes_idle", "", "untyped", [⟨[], 5⟩]⟩] =
      ([⟨"slurm_nodes_idle", "", "untyped", [⟨[], 5⟩]⟩] : List MetricFamily).map (fun fam =>
        { fam with metric := fam.metric.map (fun m =>
            { m with label := m.label ++ mkCustomLabels [("cluster", "c1")] }) })) :=
  ⟨by decide, c6_amended_in_place_append [("cluster", "c1")]
    [⟨"slurm_nodes_idle", "", "untyped", [⟨[], 5⟩]⟩] (by decide)⟩

/-- C8 (counterexample): a fully valid configuration whose only endpoint is
disabled passes `Config.Validate` (which only checks that the *configured*
list is non-empty), yet `GetEnabledEndpoints` is empty — so the engine can
run a scrape with an empty enabled-endpoint list. -/
theorem c8_counterexample :
    validateOk (Config.Validate (fun s => s == "30s") allDisabledConfig) = true ∧
    allDisabledConfig.GetEnabledEndpoints = [] := by
  decide

/-- C8 (amended): `Config.Validate` rejects configurations with zero
*configured* endpoints; all-disabled endpoint lists pass validation. -/
theorem c8_amended_zero_configured_rejected (oracle : String → Bool) (c : Config)
    (h : c.endpoints = []) :
    validateOk (Config.Validate oracle c) = false := by
  unfold Config.Validate
  split_ifs <;> simp_all [validateOk]

/-- C8 (amended, witness): the amended statement at a concrete configuration
with an empty endpoint list. -/
theorem c8_amended_witness :
    ({ allDisabledConfig with endpoints := [] } : Config).endpoints = [] ∧
    validateOk (Config.Validate (fun s => s == "30s")
      { allDisabledConfig with endpoints := [] }) = false :=
  ⟨rfl, c8_amended_zero_configured_rejected (fun s => s == "30s")
    { allDisabledConfig with endpoints := [] } rfl⟩

/-- Helper: a pointwise relation between two maps over the same list lifts
to `Forall₂` of the mapped lists. -/
theorem forall2_map_of_forall {α β γ : Type} (R : β → γ → Prop) (f : α → β) (g : α → γ)
    (l : List α) (h : ∀ x ∈ l, R (f x) (g x)) : List.Forall₂ R (l.map f) (l.map g) := by
  induction l with
  | nil => simp
  | cons a l ih =>
      simp only [List.map_cons]
      exact List.Forall₂.cons (h a (List.mem_cons_self a l))
        (ih fun x hx => h x (List.mem_cons_of_mem a hx))

/-- C2 (counterexample): the injected labels' order follows the order in
which Go's `range` visits the config map.  The two listed sequences are
iterations of the same two-entry map (they are permutations of each other),
yet `addCustomLabels` produces different outputs for them — so two
invocations on the same input need not produce byte-identical output. -/
theorem c2_counterexample :
    ([("a", "1"), ("b", "2")] : List (String × String)).Perm [("b", "2"), ("a", "1")] ∧
    addCustomLabels [("a", "1"), ("b", "2")]
        [⟨"slurm_nodes_idle", "", "untyped", [⟨[], 5⟩]⟩] ≠
      addCustomLabels [("b", "2"), ("a", "1")]
        [⟨"slurm_nodes_idle", "", "untyped", [⟨[], 5⟩]⟩] := by
  decide

/-- C2 (amended): across any two map-iteration orders of the same extra
label mapping, two invocations of `addCustomLabels` on the same parsed input
agree family-by-family and sample-by-sample up to a permutation of the label
pairs — the label *multiset* of every sample is invariant, but the injected
ordering (hence the serialized bytes) follows Go's unspecified map iteration
order and is not fixed. -/
theorem c2_amended_label_multiset_deterministic (cfg1 cfg2 : List (String × String))
    (fams : List MetricFamily) (hperm : cfg1.Perm cfg2) :
    List.Forall₂ (fun f1 f2 => f1.name = f2.name ∧ f1.help = f2.help ∧
        f1.mtype = f2.mtype ∧
        List.Forall₂ (fun m1 m2 => m1.value = m2.value ∧ m1.label.Perm m2.label)
          f1.metric f2.metric)
      (addCustomLabels cfg1 fams) (addCustomLabels cfg2 fams) := by
  rcases eq_or_ne cfg1 [] with rfl | hne
  · have h2 : cfg2 = [] := hperm.symm.eq_nil
    subst h2
    refine List.forall₂_same.mpr fun fam _ => ⟨rfl, rfl, rfl, ?_⟩
    exact List.forall₂_same.mpr fun m _ => ⟨rfl, List.Perm.refl _⟩
  · have hne2 : cfg2 ≠ [] := fun h => hne (hperm.trans (h ▸ List.Perm.refl _)).eq_nil
    have hlen1 : ¬ cfg1.length = 0 := by simpa [List.length_eq_zero] using hne
    have hlen2 : ¬ cfg2.length = 0 := by simpa [List.length_eq_zero] using hne2
    unfold addCustomLabels appendLabelsToFamilies
    rw [if_neg hlen1, if_neg hlen2]
    refine forall2_map_of_forall _ _ _ _ fun fam _ => ⟨rfl, rfl, rfl, ?_⟩
    refine forall2_map_of_forall _ _ _ _ fun m _ => ⟨rfl, ?_⟩
    show (m.label ++ mkCustomLabels cfg1).Perm (m.label ++ mkCustomLabels cfg2)
    simp only [mkCustomLabels]
    exact List.Perm.append_left m.label (hperm.map fun kv => LabelPair.mk kv.1 kv.2)

/-- C2 (amended, witness): the amended statement at the two concrete
iteration orders of the map `{a ↦ 1, b ↦ 2}`. -/
theorem c2_amended_witness :
    ([("a", "1"), ("b", "2")] : List (String × String)).Perm [("b", "2"), ("a", "1")] ∧
    List.Forall₂ (fun f1 f2 => f1.name = f2.name ∧ f1.help = f2.help ∧
        f1.mtype = f2.mtype ∧
        List.Forall₂ (fun m1 m2 => m1.value = m2.value ∧ m1.label.Perm m2.label)
          f1.metric f2.metric)
      (addCustomLabels [("a", "1"), ("b", "2")]
        [⟨"slurm_nodes_idle", "", "untyped", [⟨[], 5⟩]⟩])
      (addCustomLabels [("b", "2"), ("a", "1")]
        [⟨"slurm_nodes_idle", "", "untyped", [⟨[], 5⟩]⟩]) :=
  ⟨by decide, c2_amended_label_multiset_deterministic [("a", "1"), ("b", "2")]
    [("b", "2"), ("a", "1")] [⟨"slurm_nodes_idle", "", "untyped", [⟨[], 5⟩]⟩] (by decide)⟩

/-- C3 (counterexample): `WriteMetrics` ranges over the endpoint-keyed
results *map*.  With endpoints declared `nodes` before `jobs` (so the map
holds `nodes ↦ fam_a`, `jobs ↦ fam_b`), the reversed iteration order is an
admissible iteration of the same map (a permutation of its entries), and it
writes a family sequence different from the declaration-ordered one — the
written order is not fixed to endpoint declaration order. -/
theorem c3_counterexample :
    ([("jobs", [(⟨"fam_b", "", "untyped", []⟩ : MetricFamily)]),
      ("nodes", [⟨"fam_a", "", "untyped", []⟩])]).Perm
      [("nodes", [⟨"fam_a", "", "untyped", []⟩]),
       ("jobs", [⟨"fam_b", "", "untyped", []⟩])] ∧
    WriteMetrics [("jobs", [⟨"fam_b", "", "untyped", []⟩]),
                  ("nodes", [⟨"fam_a", "", "untyped", []⟩])] ≠
      WriteMetrics [("nodes", [⟨"fam_a", "", "untyped", []⟩]),
                    ("jobs", [⟨"fam_b", "", "untyped", []⟩])] := by
  decide

/-- C3 (amended): for any admissible iteration order of the results map
(any permutation of its entries), `WriteMetrics` writes a permutation of the
concatenation of all endpoints' family lists, and for every family name the
number of written families of that name is preserved — each endpoint's
families are written as-is, with no cross-endpoint de-duplication or merging
of identically-named families; the endpoint order itself follows Go's
unspecified map iteration order rather than declaration order. -/
theorem c3_amended_no_dedup_no_merge (iter m : List (String × List MetricFamily))
    (hiter : iter.Perm m) :
    (WriteMetrics iter).Perm (WriteMetrics m) ∧
    ∀ nm : String, ((WriteMetrics iter).filter (fun f => f.name == nm)).length =
      ((WriteMetrics m).filter (fun f => f.name == nm)).length := by
  have hp : (WriteMetrics iter).Perm (WriteMetrics m) :=
    List.Perm.flatten (hiter.map (·.2))
  exact ⟨hp, fun nm => (hp.filter _).length_eq⟩

/-- C3 (amended, witness): the amended statement at the concrete two-entry
results map of the counterexample. -/
theorem c3_amended_witness :
    ([("jobs", [(⟨"fam_b", "", "untyped", []⟩ : MetricFamily)]),
      ("nodes", [⟨"fam_a", "", "untyped", []⟩])]).Perm
      [("nodes", [⟨"fam_a", "", "untyped", []⟩]),
       ("jobs", [⟨"fam_b", "", "untyped", []⟩])] ∧
    ((WriteMetrics [("jobs", [⟨"fam_b", "", "untyped", []⟩]),
                    ("nodes", [⟨"fam_a", "", "untyped", []⟩])]).Perm
      (WriteMetrics [("nodes", [⟨"fam_a", "", "untyped", []⟩]),
                     ("jobs", [⟨"fam_b", "", "untyped", []⟩])]) ∧
    ∀ nm : String,
      ((WriteMetrics [("jobs", [⟨"fam_b", "", "untyped", []⟩]),
                      ("nodes", [⟨"fam_a", "", "untyped", []⟩])]).filter
          (fun f => f.name == nm)).length =
        ((WriteMetrics [("nodes", [⟨"fam_a", "", "untyped", []⟩]),
                        ("jobs", [⟨"fam_b", "", "untyped", []⟩])]).filter
          (fun f => f.name == nm)).length) :=
  ⟨by decide, c3_amended_no_dedup_no_merge
    [("jobs", [⟨"fam_b", "", "untyped", []⟩]), ("nodes", [⟨"fam_a", "", "untyped", []⟩])]
    [("nodes", [⟨"fam_a", "", "untyped", []⟩]), ("jobs", [⟨"fam_b", "", "untyped", []⟩])]
    (by decide)⟩

/-- C7: a data line with fewer than two whitespace-separated fields is
written back verbatim by the raw-text `addCustomLabels` and the remaining
lines of the body are processed exactly as they would be without it — the
per-line loop is total, so one malformed line never fails the endpoint's
collection. -/
theorem c7_malformed_line_tolerance (cfgLabels : List (String × String))
    (pre post : List String) (line : String)
    (h : (goFields line).length < 2) :
    processLine (mkLabelsStr cfgLabels) line = line ∧
    addCustomLabelsText cfgLabels (pre ++ line :: post) =
      addCustomLabelsText cfgLabels pre ++ line :: addCustomLabelsText cfgLabels post := by
  have hp : processLine (mkLabelsStr cfgLabels) line = line := by
    unfold processLine
    split_ifs with h1
    · rfl
    · simp [h]
  refine ⟨hp, ?_⟩
  unfold addCustomLabelsText
  split_ifs with h0
  · rfl
  · simp [hp]

/-- C7 (witness): the malformed single-token line `orphan` between a comment
line and a well-formed data line. -/
theorem c7_malformed_line_witness :
    (goFields "orphan").length < 2 ∧
    (processLine (mkLabelsStr [("cluster", "c1")]) "orphan" = "orphan" ∧
    addCustomLabelsText [("cluster", "c1")]
        (["# HELP slurm_nodes_idle Idle nodes"] ++ "orphan" :: ["slurm_nodes_idle 5"]) =
      addCustomLabelsText [("cluster", "c1")] ["# HELP slurm_nodes_idle Idle nodes"] ++
        "orphan" :: addCustomLabelsText [("cluster", "c1")] ["slurm_nodes_idle 5"]) :=
  ⟨by decide, c7_malformed_line_tolerance [("cluster", "c1")]
    ["# HELP slurm_nodes_idle Idle nodes"] ["slurm_nodes_idle 5"] "orphan" (by decide)⟩

/-- Helper: unescaping inverts escaping character by character. -/
theorem unescape_escape_chars (l : List Char) : unescapeChars (escapeChars l) = l := by
  induction l with
  | nil => rfl
  | cons c rest ih =>
      by_cases h1 : c = '\\'
      · subst h1; simp [escapeChars, unescapeChars, ih]
      · by_cases h2 : c = '"'
        · subst h2; simp [escapeChars, unescapeChars, ih]
        · by_cases h3 : c = '\n'
          · subst h3; simp [escapeChars, unescapeChars, ih]
          · rw [escapeChars, unescapeChars.eq_def]
            simp [h1, h2, h3, ih]

/-- C9: for a label value containing a literal quote and a backslash, the
writer's escaping is inverted exactly by the parser's unescaping, and the
label injector preserves every upstream label pair unchanged — so the value
survives the parse → inject → write → re-parse pipeline uncorrupted. -/
theorem c9_escaping_round_trip (v : String)
    (_hq : '"' ∈ v.data) (_hb : '\\' ∈ v.data) :
    unescapeLabelValue (escapeLabelValue v) = v ∧
    ∀ (cfgLabels : List (String × String)) (fams : List MetricFamily)
      (fam : MetricFamily) (m : Metric) (k : String),
      fam ∈ fams → m ∈ fam.metric → LabelPair.mk k v ∈ m.label →
      ∃ fam' ∈ addCustomLabels cfgLabels fams, ∃ m' ∈ fam'.metric,
        LabelPair.mk k v ∈ m'.label := by
  refine ⟨?_, ?_⟩
  · show String.mk (unescapeChars (escapeChars v.data)) = v
    rw [unescape_escape_chars]
  · intro cfg fams fam m k hfam hm hlabel
    rcases eq_or_ne cfg [] with rfl | hne
    · exact ⟨fam, hfam, m, hm, hlabel⟩
    · obtain ⟨fam', hfam', _, m', hm', hlab⟩ :=
        mem_addCustomLabels_of_ne cfg fams fam m hne hfam hm
      exact ⟨fam', hfam', m', hm', hlab ▸ List.mem_append_left _ hlabel⟩

/-- C9 (witness): the round-trip statement at the concrete value
`a"b\c`, which contains both a literal quote and a backslash. -/
theorem c9_escaping_witness :
    '"' ∈ ("a\"b\\c" : String).data ∧ '\\' ∈ ("a\"b\\c" : String).data ∧
    (unescapeLabelValue (escapeLabelValue "a\"b\\c") = "a\"b\\c" ∧
    ∀ (cfgLabels : List (String × String)) (fams : List MetricFamily)
      (fam : MetricFamily) (m : Metric) (k : String),
      fam ∈ fams → m ∈ fam.metric → LabelPair.mk k "a\"b\\c" ∈ m.label →
      ∃ fam' ∈ addCustomLabels cfgLabels fams, ∃ m' ∈ fam'.metric,
        LabelPair.mk k "a\"b\\c" ∈ m'.label) :=
  ⟨by decide, by decide, c9_escaping_round_trip "a\"b\\c" (by decide) (by decide)⟩

/-- Whether `collectEndpoint` succeeds for an endpoint under the outcome
environment `out`. -/
def isSuccess (out : String → FetchOutcome) (ep : EndpointConfig) : Bool :=
  match out ep.name with
  | .success _ => true
  | _ => false

/-- The parsed families of a succeeding endpoint (empty for failures). -/
def famsOf (out : String → FetchOutcome) (ep : EndpointConfig) : List MetricFamily :=
  match out ep.name with
  | .success fams => fams
  | _ => []

/-- Helper: the loop body on a failing endpoint sets its success gauge to 0
and increments its error counter, leaving the results map untouched. -/
theorem collectStep_fail (cfg : List (String × String)) (out : String → FetchOutcome)
    (st : ScrapeState) (ep : EndpointConfig) (h : isSuccess out ep = false) :
    collectStep cfg out st ep =
      { st with successGauge := st.successGauge ++ [(ep.name, 0)],
                errorIncs := st.errorIncs ++ [ep.name] } := by
  unfold collectStep
  cases hout : out ep.name with
  | success fams => rw [isSuccess, hout] at h; simp at h
  | connectFailure => simp [collectEndpoint, hout]
  | badStatus code => simp [collectEndpoint, hout]
  | readFailure => simp [collectEndpoint, hout]
  | parseFailure => simp [collectEndpoint, hout]

/-- Helper: the loop body on a succeeding endpoint sets its success gauge to
1 and stores the relabeled families under the endpoint's name. -/
theorem collectStep_ok (cfg : List (String × String)) (out : String → FetchOutcome)
    (st : ScrapeState) (ep : EndpointConfig) (fams : List MetricFamily)
    (h : out ep.name = .success fams) :
    collectStep cfg out st ep =
      { st with successGauge := st.successGauge ++ [(ep.name, 1)],
                results := mapInsert ep.name (addCustomLabels cfg fams) st.results } := by
  unfold collectStep
  simp [collectEndpoint, h]

/-- Helper: inserting a fresh key into the results map appends the entry. -/
theorem mapInsert_not_mem (k : String) (v : List MetricFamily)
    (m : List (String × List MetricFamily)) (h : k ∉ m.map (·.1)) :
    mapInsert k v m = m ++ [(k, v)] := by
  have hfalse : (m.any fun kv => decide (kv.1 = k)) = false := by
    rw [List.any_eq_false]
    intro kv hkv
    simp only [decide_eq_true_eq]
    exact fun hk => h (hk ▸ List.mem_map_of_mem (fun x => x.1) hkv)
  simp [mapInsert, hfalse]

/-- Helper: closed form of the `CollectAll` loop over endpoints with
distinct names that are fresh for the accumulated results map: succeeding
endpoints' relabeled families are appended in declaration order, every
endpoint gets exactly one success-gauge write (1 on success, 0 on failure),
and exactly the failing endpoints get an error-counter increment. -/
theorem collectRun_spec (cfg : List (String × String)) (out : String → FetchOutcome)
    (eps : List EndpointConfig) (st : ScrapeState)
    (hnodup : (eps.map (·.name)).Nodup)
    (hfresh : ∀ ep ∈ eps, ep.name ∉ st.results.map (·.1)) :
    eps.foldl (collectStep cfg out) st =
      { results := st.results ++ (eps.filter (fun ep => isSuccess out ep)).map
          (fun ep => (ep.name, addCustomLabels cfg (famsOf out ep))),
        successGauge := st.successGauge ++ eps.map
          (fun ep => (ep.name, if isSuccess out ep then 1 else 0)),
        errorIncs := st.errorIncs ++
          (eps.filter (fun ep => !(isSuccess out ep))).map (·.name) } := by
  induction eps generalizing st with
  | nil => simp
  | cons ep eps ih =>
      have hnames : ep.name ∉ eps.map (·.name) := by
        rw [List.map_cons, List.nodup_cons] at hnodup; exact hnodup.1
      have hnodup' : (eps.map (·.name)).Nodup := by
        rw [List.map_cons, List.nodup_cons] at hnodup; exact hnodup.2
      rw [List.foldl_cons]
      cases hsucc : isSuccess out ep with
      | false =>
          rw [collectStep_fail cfg out st ep hsucc]
          rw [ih (ScrapeState.mk st.results (st.successGauge ++ [(ep.name, 0)])
              (st.errorIncs ++ [ep.name]))
              hnodup' (fun ep' h' => hfresh ep' (List.mem_cons_of_mem ep h'))]
          simp [hsucc, List.filter_cons, List.append_assoc]
      | true =>
          obtain ⟨fams, hfams⟩ : ∃ fams, out ep.name = .success fams := by
            unfold isSuccess at hsucc
            cases hout : out ep.name <;> rw [hout] at hsucc <;> simp_all
          rw [collectStep_ok cfg out st ep fams hfams]
          rw [mapInsert_not_mem _ _ _ (hfresh ep (List.mem_cons_self ep eps))]
          have hfresh2 : ∀ ep' ∈ eps,
              ep'.name ∉ (st.results ++ [(ep.name, addCustomLabels cfg fams)]).map (·.1) := by
            intro ep' h'
            have h1 := hfresh ep' (List.mem_cons_of_mem ep h')
            have h2 : ep'.name ≠ ep.name := fun he =>
              hnames (he ▸ List.mem_map_of_mem (·.name) h')
            simp [List.map_append, h1, h2]
          rw [ih (ScrapeState.mk (st.results ++ [(ep.name, addCustomLabels cfg fams)])
              (st.successGauge ++ [(ep.name, 1)]) st.errorIncs) hnodup' hfresh2]
          simp [hsucc, List.filter_cons, famsOf, hfams, List.append_assoc]

/-- Helper: the value of the success gauge after the per-endpoint writes of
one scrape, when endpoint names are distinct. -/
theorem gaugeValue_map (eps : List EndpointConfig) (bit : EndpointConfig → Nat)
    (ep : EndpointConfig) (hnodup : (eps.map (·.name)).Nodup) (hmem : ep ∈ eps) :
    gaugeValue (eps.map (fun e => (e.name, bit e))) ep.name = some (bit ep) := by
  induction eps with
  | nil => cases hmem
  | cons e eps ih =>
      have hnames : e.name ∉ eps.map (·.name) := by
        rw [List.map_cons, List.nodup_cons] at hnodup; exact hnodup.1
      have hnodup' : (eps.map (·.name)).Nodup := by
        rw [List.map_cons, List.nodup_cons] at hnodup; exact hnodup.2
      rcases List.mem_cons.mp hmem with rfl | hmem'
      · have hrest : (eps.map (fun e => (e.name, bit e))).filter
            (fun kv => decide (kv.1 = ep.name)) = [] := by
          rw [List.filter_eq_nil_iff]
          intro kv hkv
          simp only [decide_eq_true_eq]
          intro hk
          obtain ⟨e', he', hke⟩ := List.mem_map.mp hkv
          exact hnames (by
            rw [← hk, ← hke]
            exact List.mem_map_of_mem (·.name) he')
        unfold gaugeValue
        rw [List.map_cons, List.filter_cons]
        simp [hrest]
      · have hne : e.name ≠ ep.name := fun he =>
          hnames (he ▸ List.mem_map_of_mem (·.name) hmem')
        have := ih hnodup' hmem'
        unfold gaugeValue at this ⊢
        rw [List.map_cons, List.filter_cons]
        simpa [hne] using this

/-- C4: in a scrape where some enabled endpoints fail and others succeed,
every succeeding endpoint's relabeled families are stored and appear in the
handler's response body, the success gauge is written 1 for succeeding and 0
for failing endpoints, error counters are incremented exactly for the
failing ones (which contribute no results entry), and the handler still
answers status 200 with the succeeding endpoints' metrics followed by the
self-metrics. -/
theorem c4_partial_failure_isolation
    (cfgLabels : List (String × String)) (out : String → FetchOutcome) (c : Config)
    (iterChoice : List (String × List MetricFamily) → List (String × List MetricFamily))
    (selfMetrics : List MetricFamily)
    (hnodup : (c.GetEnabledEndpoints.map (·.name)).Nodup)
    (hiter : ∀ m, (iterChoice m).Perm m)
    (_hfail : ∃ ep ∈ c.GetEnabledEndpoints, isSuccess out ep = false)
    (_hsucc : ∃ ep ∈ c.GetEnabledEndpoints, isSuccess out ep = true) :
    (∀ ep ∈ c.GetEnabledEndpoints, ∀ fams, out ep.name = .success fams →
      (ep.name, addCustomLabels cfgLabels fams) ∈ (CollectAll cfgLabels out c).1.results ∧
      gaugeValue (CollectAll cfgLabels out c).1.successGauge ep.name = some 1 ∧
      ∀ f ∈ addCustomLabels cfgLabels fams,
        f ∈ (handleMetrics cfgLabels out c iterChoice selfMetrics).2) ∧
    (∀ ep ∈ c.GetEnabledEndpoints, isSuccess out ep = false →
      ep.name ∉ (CollectAll cfgLabels out c).1.results.map (·.1) ∧
      gaugeValue (CollectAll cfgLabels out c).1.successGauge ep.name = some 0 ∧
      ep.name ∈ (CollectAll cfgLabels out c).1.errorIncs) ∧
    (handleMetrics cfgLabels out c iterChoice selfMetrics).1 = 200 ∧
    (handleMetrics cfgLabels out c iterChoice selfMetrics).2 =
      WriteMetrics (iterChoice (CollectAll cfgLabels out c).1.results) ++ selfMetrics := by
  have hspec := collectRun_spec cfgLabels out c.GetEnabledEndpoints ⟨[], [], []⟩ hnodup
    (by simp)
  have hColl : (CollectAll cfgLabels out c).1 =
      { results := (c.GetEnabledEndpoints.filter (fun ep => isSuccess out ep)).map
          (fun ep => (ep.name, addCustomLabels cfgLabels (famsOf out ep))),
        successGauge := c.GetEnabledEndpoints.map
          (fun ep => (ep.name, if isSuccess out ep then 1 else 0)),
        errorIncs := (c.GetEnabledEndpoints.filter
          (fun ep => !(isSuccess out ep))).map (·.name) } := by
    unfold CollectAll
    simpa using hspec
  have hbody : (handleMetrics cfgLabels out c iterChoice selfMetrics).2 =
      WriteMetrics (iterChoice (CollectAll cfgLabels out c).1.results) ++ selfMetrics := rfl
  refine ⟨?_, ?_, rfl, hbody⟩
  · intro ep hep fams hfams
    have hbit : isSuccess out ep = true := by unfold isSuccess; rw [hfams]
    have hfeq : (ep.name, addCustomLabels cfgLabels fams) =
        (fun ep => (ep.name, addCustomLabels cfgLabels (famsOf out ep))) ep := by
      simp [famsOf, hfams]
    have hmemres : (ep.name, addCustomLabels cfgLabels fams) ∈
        (CollectAll cfgLabels out c).1.results := by
      rw [hColl, hfeq]
      exact List.mem_map_of_mem _ (List.mem_filter.mpr ⟨hep, hbit⟩)
    refine ⟨hmemres, ?_, ?_⟩
    · rw [hColl]
      have := gaugeValue_map c.GetEnabledEndpoints
        (fun e => if isSuccess out e then 1 else 0) ep hnodup hep
      rw [this]
      simp [hbit]
    · intro f hf
      rw [hbody]
      apply List.mem_append_left
      unfold WriteMetrics
      apply List.mem_flatten.mpr
      refine ⟨addCustomLabels cfgLabels fams, ?_, hf⟩
      have hmemiter : (ep.name, addCustomLabels cfgLabels fams) ∈
          iterChoice (CollectAll cfgLabels out c).1.results :=
        ((hiter _).mem_iff).mpr hmemres
      exact List.mem_map_of_mem (·.2) hmemiter
  · intro ep hep hbit
    refine ⟨?_, ?_, ?_⟩
    · rw [hColl]
      intro hmem
      simp only [List.map_map] at hmem
      obtain ⟨ep', hep', hname⟩ := List.mem_map.mp hmem
      have hep'mem : ep' ∈ c.GetEnabledEndpoints := (List.mem_filter.mp hep').1
      have hep'succ : isSuccess out ep' = true := (List.mem_filter.mp hep').2
      have : ep' = ep := List.inj_on_of_nodup_map hnodup hep'mem hep hname
      rw [this, hbit] at hep'succ
      exact Bool.false_ne_true hep'succ
    · rw [hColl]
      have := gaugeValue_map c.GetEnabledEndpoints
        (fun e => if isSuccess out e then 1 else 0) ep hnodup hep
      rw [this]
      simp [hbit]
    · rw [hColl]
      refine List.mem_map_of_mem (·.name) (List.mem_filter.mpr ⟨hep, ?_⟩)
      rw [hbit]
      rfl

/-- A two-endpoint configuration used to witness the partial-failure
statement. -/
def cfgW : Config :=
  { slurm := { url := "http://localhost:6820", timeout := "30s" },
    server := { port := 8080,
                basicAuth := { enabled := false, username := "", password := "" },
                ssl := { enabled := false, certFile := "", keyFile := "" } },
    endpoints := [{ name := "nodes", path := "/nodes", enabled := true },
                  { name := "jobs", path := "/jobs", enabled := true }],
    labels := [("cluster", "c1")],
    logging := { level := "info", output := "stdout" } }

/-- An outcome environment where endpoint `nodes` succeeds and every other
endpoint answers a 500 status. -/
def outW : String → FetchOutcome := fun name =>
  if name = "nodes" then .success [⟨"slurm_nodes_idle", "", "gauge", [⟨[], 5⟩]⟩]
  else .badStatus 500

/-- C4 (witness): the partial-failure statement at the concrete two-endpoint
configuration where `nodes` succeeds and `jobs` fails. -/
theorem c4_partial_failure_witness :
    ((cfgW.GetEnabledEndpoints.map (·.name)).Nodup ∧
     (∃ ep ∈ cfgW.GetEnabledEndpoints, isSuccess outW ep = false) ∧
     (∃ ep ∈ cfgW.GetEnabledEndpoints, isSuccess outW ep = true)) ∧
    ((∀ ep ∈ cfgW.GetEnabledEndpoints, ∀ fams, outW ep.name = .success fams →
      (ep.name, addCustomLabels [("cluster", "c1")] fams) ∈
        (CollectAll [("cluster", "c1")] outW cfgW).1.results ∧
      gaugeValue (CollectAll [("cluster", "c1")] outW cfgW).1.successGauge ep.name = some 1 ∧
      ∀ f ∈ addCustomLabels [("cluster", "c1")] fams,
        f ∈ (handleMetrics [("cluster", "c1")] outW cfgW id []).2) ∧
    (∀ ep ∈ cfgW.GetEnabledEndpoints, isSuccess outW ep = false →
      ep.name ∉ (CollectAll [("cluster", "c1")] outW cfgW).1.results.map (·.1) ∧
      gaugeValue (CollectAll [("cluster", "c1")] outW cfgW).1.successGauge ep.name = some 0 ∧
      ep.name ∈ (CollectAll [("cluster", "c1")] outW cfgW).1.errorIncs) ∧
    (handleMetrics [("cluster", "c1")] outW cfgW id []).1 = 200 ∧
    (handleMetrics [("cluster", "c1")] outW cfgW id []).2 =
      WriteMetrics (id (CollectAll [("cluster", "c1")] outW cfgW).1.results) ++ []) :=
  ⟨⟨by decide, by decide, by decide⟩,
    c4_partial_failure_isolation [("cluster", "c1")] outW cfgW id []
      (by decide) (fun m => List.Perm.refl m) (by decide) (by decide)⟩

end SlurmExporter
